import Mathlib

/-!
Verification development for the "asia" visual-novel engine core: the
diplomacy state and rule engine (`src/data/diplomacy_engine.js`), the AI
worker's effect calculation and anti-spiral guard (AI worker module), the
narrative state machine (`src/state_machine.js`) with the game engine's
back-navigation, the AI client's response parser (`src/ai_client.js`) and
the heuristic player-utterance analyzer (simplified AI worker module).

JavaScript objects keyed by strings are modelled either as total maps
`String → _` (for the game state, whose every numeric read in the source
goes through `x[k] || 0`) or as association lists `List (String × _)`
(for effect deltas and content records, which the source iterates with
`Object.entries`).  Source objects never carry duplicate keys.
-/

namespace Asia

/-- Flag values stored in `gameState.flags`: booleans or strings. -/
inductive FlagV where
  | bool (b : Bool)
  | str (s : String)
deriving DecidableEq, Repr

/-- The mutable diplomacy game state built by `DiplomacyEngine`.  The four
JS objects are modelled as total maps: every numeric read in the source is
`x[k] || 0`, so a missing key is indistinguishable from `0`; `flags` reads
do distinguish missing keys, hence `Option`. -/
structure GameState where
  factions : String → Int
  player_traits : String → Int
  npc_opinions : String → Int
  flags : String → Option FlagV

/-- An effect delta: the `effects` object consumed by
`DiplomacyEngine.applyEffects`.  Sub-maps are association lists, iterated
in order as `Object.entries` does. -/
structure EffectDelta where
  factions : List (String × Int)
  player_traits : List (String × Int)
  npc_opinions : List (String × Int)
  flags : List (String × FlagV)
deriving DecidableEq, Repr

/-- The clamp `Math.max(-100, Math.min(100, x))` applied after every
faction and opinion mutation. -/
def clamp100 (x : Int) : Int := max (-100) (min 100 x)

/-- One pass of `for (const [k, value] of Object.entries(...))` updating
`f[k] = (f[k] || 0) + value` followed by the clamp to `[-100, 100]`. -/
def applyEntriesClamped (f : String → Int) (entries : List (String × Int)) : String → Int :=
  entries.foldl (fun g kv => fun x => if x = kv.1 then clamp100 (g kv.1 + kv.2) else g x) f

/-- One pass of `for (const [k, value] of Object.entries(...))` updating
`f[k] = (f[k] || 0) + value` with no clamping (player traits). -/
def applyEntries (f : String → Int) (entries : List (String × Int)) : String → Int :=
  entries.foldl (fun g kv => fun x => if x = kv.1 then g kv.1 + kv.2 else g x) f

/-- `Object.assign(this.gameState.flags, effects.flags)`: each named flag
is overwritten (not merged). -/
def assignFlags (f : String → Option FlagV) (entries : List (String × FlagV)) :
    String → Option FlagV :=
  entries.foldl (fun g kv => fun x => if x = kv.1 then some kv.2 else g x) f

/-- `DiplomacyEngine.applyEffects`: factions and NPC opinions are added
and clamped into `[-100, 100]`; player traits are added unclamped; flags
are overwritten. -/
def applyEffects (s : GameState) (effects : EffectDelta) : GameState :=
  { factions := applyEntriesClamped s.factions effects.factions
    player_traits := applyEntries s.player_traits effects.player_traits
    npc_opinions := applyEntriesClamped s.npc_opinions effects.npc_opinions
    flags := assignFlags s.flags effects.flags }

/-- `DiplomacyEngine.initializeGameState`: every faction, trait and NPC
opinion key starts at `0` and `flags` starts empty.  (The source seeds a
finite key set with `0`; since all numeric reads default missing keys to
`0`, the constant-zero map is the observable initial state.) -/
def initializeGameState : GameState :=
  { factions := fun _ => 0
    player_traits := fun _ => 0
    npc_opinions := fun _ => 0
    flags := fun _ => none }

/-- A sequence of `applyEffects` calls starting from the initialized
game state. -/
def applyEffectsSeq (ds : List EffectDelta) : GameState :=
  ds.foldl applyEffects initializeGameState

/-- Total contribution of an entry list to key `k` (specification-side
sum used to state that trait updates are exact, unclamped additions). -/
def entriesSum : List (String × Int) → String → Int
  | [], _ => 0
  | kv :: rest, k => (if k = kv.1 then kv.2 else 0) + entriesSum rest k

/-- Value of the last entry for key `k` in a flag entry list, if any
(specification-side description of overwrite semantics). -/
def lastLookup : List (String × FlagV) → String → Option FlagV
  | [], _ => none
  | kv :: rest, k =>
    match lastLookup rest k with
    | some v => some v
    | none => if k = kv.1 then some kv.2 else none

/-- Overwrite semantics: the last written value wins, otherwise the old
value survives. -/
def overwriteSpec (lastWrite old : Option FlagV) : Option FlagV :=
  match lastWrite with
  | some v => some v
  | none => old

/-- An entry of `npc_diplomacy_rules.json`'s `npc_rules` table; only the
presence of the entry and of its `fallback_rule` matter to the guard
(the rule text is merely logged). -/
structure NpcRule where
  fallback_rule : Option String
deriving DecidableEq, Repr

/-- Read `l[k] || 0` on an association-list sub-map: a missing key (and a
stored `0`) reads as the default. -/
def lookupD (l : List (String × Int)) (k : String) (d : Int) : Int :=
  (List.lookup k l).getD d

/-- JS property write `l[k] = v`: replace the existing entry for `k`
(source objects have unique keys) or append a fresh one. -/
def setEntry : List (String × Int) → String → Int → List (String × Int)
  | [], k, v => [(k, v)]
  | kv :: rest, k, v => if kv.1 == k then (k, v) :: rest else kv :: setEntry rest k v

/-- Soft-lock branch of `applyFallbackProtections`: when the predicted
opinion is below `-40` and the delta's opinion component is negative,
soften it to `Math.max(component, -3)`. -/
def softLockStep (npcId : String) (predictedOpinion : Int) (effects : EffectDelta) :
    EffectDelta :=
  if predictedOpinion < -40 then
    if lookupD effects.npc_opinions npcId 0 < 0 then
      { effects with
          npc_opinions :=
            setEntry effects.npc_opinions npcId
              (max (lookupD effects.npc_opinions npcId 0) (-3)) }
    else effects
  else effects

/-- Hard-lock branch of `applyFallbackProtections`: when the predicted
opinion is below `-80` and the (possibly already softened) component is
still negative, neutralize it to `0`. -/
def hardLockStep (npcId : String) (predictedOpinion : Int) (effects : EffectDelta) :
    EffectDelta :=
  if predictedOpinion < -80 then
    if lookupD effects.npc_opinions npcId 0 < 0 then
      { effects with npc_opinions := setEntry effects.npc_opinions npcId 0 }
    else effects
  else effects

/-- `AIWorker.applyFallbackProtections`: returns immediately when the
character has no `npc_rules` entry; otherwise computes
`predictedOpinion = currentOpinion + opinionDelta` once from the incoming
delta, then runs the soft-lock check followed by the hard-lock check on
the (possibly updated) delta.  The JS mutates `effects` in place; the
embedding returns the updated delta. -/
def applyFallbackProtections (npc_rules : String → Option NpcRule) (npcId : String)
    (effects : EffectDelta) (gameState : GameState) : EffectDelta :=
  match npc_rules npcId with
  | none => effects
  | some _ =>
    hardLockStep npcId
      (gameState.npc_opinions npcId + lookupD effects.npc_opinions npcId 0)
      (softLockStep npcId
        (gameState.npc_opinions npcId + lookupD effects.npc_opinions npcId 0) effects)

/-- A JSON-ish value occurring in AI-dialogue conditions and analyses:
either a scalar string or a list of strings. -/
inductive JVal where
  | str (s : String)
  | arr (l : List String)
deriving DecidableEq, Repr

/-- `AIWorker.matchesCondition`: every condition key must match (AND
across keys).  For an array of expected values, some expected value must
match the analysis value (list-any when the analysis value is itself a
list, plain equality when it is a scalar, and a missing analysis value
matches nothing).  For a scalar expected value, JS strict inequality
`actualValue !== expectedValues` rejects everything except an equal
scalar (a list or missing analysis value is never strictly equal to a
scalar). -/
def matchesCondition (condition analysis : List (String × JVal)) : Bool :=
  condition.all (fun kv =>
    match kv.2 with
    | JVal.arr expectedValues =>
      expectedValues.any (fun expected =>
        match List.lookup kv.1 analysis with
        | some (JVal.arr actualList) => actualList.any (fun v => v == expected)
        | some (JVal.str actual) => actual == expected
        | none => false)
    | JVal.str expected =>
      match List.lookup kv.1 analysis with
      | some (JVal.str actual) => actual == expected
      | _ => false)

/-- The `effects` object of one `effects_mapping` entry: each sub-map may
be absent in the content (each read back with an empty-object default). -/
structure RawEffects where
  factions : Option (List (String × Int))
  player_traits : Option (List (String × Int))
  npc_opinions : Option (List (String × Int))
  flags : Option (List (String × FlagV))
deriving DecidableEq, Repr

/-- One `{condition, effects}` entry of a scene's
`ai_dialogue.effects_mapping` list. -/
structure EffectsMapping where
  condition : List (String × JVal)
  effects : RawEffects
deriving DecidableEq, Repr

/-- A scene's `ai_dialogue` descriptor. -/
structure AiDialogue where
  effects_mapping : List EffectsMapping
deriving DecidableEq, Repr

/-- One entry of the module diplomacy document's `acts` list. -/
structure Act where
  scene : String
  ai_dialogue : Option AiDialogue
deriving DecidableEq, Repr

/-- `AIWorker.getDefaultEffects`: the neutral effect with all four
sub-maps empty. -/
def getDefaultEffects : EffectDelta :=
  { factions := [], player_traits := [], npc_opinions := [], flags := [] }

/-- The delta built from a matched mapping's effects, defaulting each
absent sub-map to the empty map. -/
def rawToDelta (effects : RawEffects) : EffectDelta :=
  { factions := effects.factions.getD []
    player_traits := effects.player_traits.getD []
    npc_opinions := effects.npc_opinions.getD []
    flags := effects.flags.getD [] }

/-- `AIWorker.calculateDiplomacyEffects`: find the scene in the module's
`acts`; without a scene or an `ai_dialogue` descriptor return the
neutral default; otherwise return the first mapping (in document order)
whose condition matches the analysis, with absent sub-maps defaulted to
empty, or the neutral default when no mapping matches. -/
def calculateDiplomacyEffects (acts : List Act) (sceneId : String)
    (analysis : List (String × JVal)) : EffectDelta :=
  match acts.find? (fun a => a.scene == sceneId) with
  | none => getDefaultEffects
  | some scene =>
    match scene.ai_dialogue with
    | none => getDefaultEffects
    | some ai =>
      match ai.effects_mapping.find? (fun m => matchesCondition m.condition analysis) with
      | some mapping => rawToDelta mapping.effects
      | none => getDefaultEffects

/-- The expected-value set of a condition entry as the claim reads it: a
scalar expected value forms a singleton set. -/
def expectedSet : JVal → List String
  | JVal.str e => [e]
  | JVal.arr es => es

/-- Key-match rule exactly as claim C2 states it: the analysis value
equals some expected value in the key's set, and a list-valued analysis
value matches whenever any of its elements equals any expected value. -/
def claimKeyMatches (expectedValues : JVal) (actualValue : Option JVal) : Bool :=
  match actualValue with
  | none => false
  | some (JVal.str a) => (expectedSet expectedValues).any (fun e => a == e)
  | some (JVal.arr l) => (expectedSet expectedValues).any (fun e => l.any (fun v => v == e))

/-- Condition-match rule exactly as claim C2 states it: AND across keys
of `claimKeyMatches`. -/
def claimCondMatches (condition analysis : List (String × JVal)) : Bool :=
  condition.all (fun kv => claimKeyMatches kv.2 (List.lookup kv.1 analysis))

/-- Key-match rule of the amended claim: list-any semantics apply only
when the expected value is a set (array); a scalar expected value matches
only an equal scalar analysis value and never a list-valued one. -/
def amendedKeyMatches (expectedValues : JVal) (actualValue : Option JVal) : Bool :=
  match expectedValues with
  | JVal.arr es =>
    es.any (fun expected =>
      match actualValue with
      | some (JVal.arr actualList) => actualList.any (fun v => v == expected)
      | some (JVal.str actual) => actual == expected
      | none => false)
  | JVal.str expected =>
    match actualValue with
    | some (JVal.str actual) => actual == expected
    | _ => false

/-- Condition-match rule of the amended claim: AND across keys of
`amendedKeyMatches`. -/
def amendedCondMatches (condition analysis : List (String × JVal)) : Bool :=
  condition.all (fun kv => amendedKeyMatches kv.2 (List.lookup kv.1 analysis))

/-- Lookup result as the (amended) claim describes it: the effects of the
first mapping in document order whose condition fully matches, with
absent sub-maps empty, and the neutral default when no mapping matches.
Written from the claim's wording, to be compared with the source
function. -/
def firstMatchingEffects (mappings : List EffectsMapping)
    (analysis : List (String × JVal)) : EffectDelta :=
  match mappings with
  | [] => getDefaultEffects
  | m :: rest =>
    if amendedCondMatches m.condition analysis then rawToDelta m.effects
    else firstMatchingEffects rest analysis

/-- Counterexample fixture: a condition whose expected value is the
scalar `"loyal"`. -/
def condScalarLoyal : List (String × JVal) := [("overall_tone", JVal.str "loyal")]

/-- Counterexample fixture: an analysis whose `overall_tone` is the list
`["loyal"]`. -/
def analysisListLoyal : List (String × JVal) := [("overall_tone", JVal.arr ["loyal"])]

/-- Counterexample fixture: a single mapping guarded by the scalar
condition, carrying a visibly non-neutral effect. -/
def mappingScalarLoyal : EffectsMapping :=
  { condition := condScalarLoyal
    effects :=
      { factions := none
        player_traits := none
        npc_opinions := some [("trepov", 5)]
        flags := none } }

/-- Counterexample fixture: the lookup result exactly as claim C2 states
it, built on the claim's own condition-match rule. -/
def claimFirstMatchingEffects (mappings : List EffectsMapping)
    (analysis : List (String × JVal)) : EffectDelta :=
  match mappings with
  | [] => getDefaultEffects
  | m :: rest =>
    if claimCondMatches m.condition analysis then rawToDelta m.effects
    else claimFirstMatchingEffects rest analysis

/-- Counterexample fixture: an acts list holding only the scalar-guarded
mapping. -/
def actsScalarLoyal : List Act :=
  [{ scene := "2_trepov_meeting"
     ai_dialogue := some { effects_mapping := [mappingScalarLoyal] } }]

/-- Witness fixture: first mapping of the first-match demonstration. -/
def mappingLoyalFirst : EffectsMapping :=
  { condition := [("overall_tone", JVal.arr ["loyal", "neutral"])]
    effects :=
      { factions := some [("RUS", 3)]
        player_traits := none
        npc_opinions := some [("trepov", 5)]
        flags := none } }

/-- Witness fixture: second mapping, also satisfiable by the same
analysis. -/
def mappingLoyalSecond : EffectsMapping :=
  { condition := [("overall_tone", JVal.arr ["loyal"])]
    effects :=
      { factions := none
        player_traits := none
        npc_opinions := some [("trepov", 1)]
        flags := none } }

/-- Witness fixture: the `ai_dialogue` descriptor with both mappings. -/
def aiTwoMappings : AiDialogue :=
  { effects_mapping := [mappingLoyalFirst, mappingLoyalSecond] }

/-- Witness fixture: the act carrying both mappings. -/
def actTwoMappings : Act :=
  { scene := "2_trepov_meeting", ai_dialogue := some aiTwoMappings }

/-- Witness fixture: acts list for the first-match demonstration. -/
def actsTwoMappings : List Act := [actTwoMappings]

/-- Witness fixture: an analysis matching both mappings. -/
def analysisLoyal : List (String × JVal) :=
  [("overall_tone", JVal.arr ["loyal"]), ("detected_stance_towards_russia", JVal.str "positive")]

/-- Witness fixture: an analysis matching neither mapping. -/
def analysisCritical : List (String × JVal) := [("overall_tone", JVal.arr ["critical"])]

/-- A choice of a `scene` node: `id` and target node `next` (the display
text is presentation data not used by the machine). -/
structure Choice where
  id : String
  next : String
deriving DecidableEq, Repr

/-- A fallback transition entry: the target node (the JS field `to`). -/
structure Transition where
  toState : String
deriving DecidableEq, Repr

/-- One node of the state graph.  `type` is the source's string tag;
`choices` and `transitions` may be absent (JS `undefined` is falsy) while
an empty list is present-but-empty (a JS empty array is truthy). -/
structure NodeData where
  type : String
  choices : Option (List Choice)
  transitions : Option (List Transition)
deriving DecidableEq, Repr

/-- One history record (JS fields `from`, `to`, `choice`).  The source
also stores a `timestamp: Date.now()`, wall-clock data outside this
embedding and not read anywhere. -/
structure HistoryEntry where
  fromState : String
  toState : String
  choice : Option String
deriving DecidableEq, Repr

/-- The `StateMachine` state: the graph, the cursor, the terminal id and
the transition history. -/
structure StateMachine where
  states : List (String × NodeData)
  currentState : String
  exitState : String
  history : List HistoryEntry
deriving DecidableEq, Repr

/-- The errors `StateMachine.transition` can throw: missing current
state, no valid transition, or the JS `TypeError` raised by reading
`transitions[0].to` on an empty array. -/
inductive SMError where
  | stateNotFound (id : String)
  | noValidTransition (fromId : String) (choiceId : Option String)
  | typeError
deriving DecidableEq, Repr

/-- JS falsiness of the `choiceId` argument: `null`/missing or the empty
string. -/
def jsFalsyStr : Option String → Bool
  | none => true
  | some s => s.isEmpty

/-- `state.transitions[0].to`, a JS `TypeError` on an empty array. -/
def firstTransitionTarget : List Transition → Except SMError String
  | [] => Except.error SMError.typeError
  | t :: _ => Except.ok t.toState

/-- Next-state resolution of `StateMachine.transition`, by node `type`:
a `scene` with a declared choices list looks the supplied choice id up
and falls back to the first transition when the choice id was falsy; a
`hub` moves to the first transition when the choice id was falsy and the
list is nonempty; `ai_dialogue` and `system` always move to the first
transition.  `Except.ok none` is JS `nextState = null`. -/
def selectNext (state : NodeData) (choiceId : Option String) :
    Except SMError (Option String) :=
  if state.type == "scene" && state.choices.isSome then
    match (state.choices.getD []).find? (fun c => choiceId == some c.id) with
    | some choice => Except.ok (some choice.next)
    | none =>
      if jsFalsyStr choiceId && state.transitions.isSome then
        Except.map some (firstTransitionTarget (state.transitions.getD []))
      else Except.ok none
  else if state.type == "hub" && state.transitions.isSome then
    if jsFalsyStr choiceId && decide (0 < (state.transitions.getD []).length) then
      Except.map some (firstTransitionTarget (state.transitions.getD []))
    else Except.ok none
  else if state.type == "ai_dialogue" && state.transitions.isSome then
    Except.map some (firstTransitionTarget (state.transitions.getD []))
  else if state.type == "system" && state.transitions.isSome then
    Except.map some (firstTransitionTarget (state.transitions.getD []))
  else Except.ok none

/-- `StateMachine.transition`: resolve the next state; a JS-falsy result
(`null`, or an empty-string target) throws `NoValidTransition`;
otherwise append exactly one history record (whose `from` is the
pre-transition node) and then move the cursor. -/
def transition (sm : StateMachine) (choiceId : Option String) :
    Except SMError StateMachine :=
  match List.lookup sm.currentState sm.states with
  | none => Except.error (SMError.stateNotFound sm.currentState)
  | some state =>
    match selectNext state choiceId with
    | Except.error e => Except.error e
    | Except.ok none => Except.error (SMError.noValidTransition sm.currentState choiceId)
    | Except.ok (some nextState) =>
      if nextState.isEmpty then
        Except.error (SMError.noValidTransition sm.currentState choiceId)
      else
        Except.ok
          { sm with
              history := sm.history ++
                [{ fromState := sm.currentState, toState := nextState, choice := choiceId }]
              currentState := nextState }

/-- `GameEngine.navigateBack` restricted to the state it owns: with an
empty history it logs a warning and returns with no change (it does not
fail); otherwise it pops the most recent record and restores the cursor
to the record's `from`, without logging a new record. -/
def navigateBack (sm : StateMachine) : StateMachine :=
  match sm.history.getLast? with
  | none => sm
  | some lastTransition =>
    { sm with
        history := sm.history.dropLast
        currentState := lastTransition.fromState }

/-- Fixture: the spec's example `scene` node with choices
`[{id:"a",next:"X"},{id:"b",next:"Y"}]` and no transitions fallback. -/
def nodeSceneAB : NodeData :=
  { type := "scene"
    choices := some [{ id := "a", next := "X" }, { id := "b", next := "Y" }]
    transitions := none }

/-- Fixture: a machine sitting on the example scene node with empty
history. -/
def smSceneAB : StateMachine :=
  { states := [("S", nodeSceneAB)], currentState := "S", exitState := "EXIT", history := [] }

/-- Fixture: the machine after taking choice `b` from `smSceneAB`. -/
def smAfterB : StateMachine :=
  { states := [("S", nodeSceneAB)]
    currentState := "Y"
    exitState := "EXIT"
    history := [{ fromState := "S", toState := "Y", choice := some "b" }] }

/-- Concrete rules table fixture: only `trepov` has an `npc_rules` entry
(with no `fallback_rule` text). -/
def npcRulesFix : String → Option NpcRule :=
  fun id => if id = "trepov" then some { fallback_rule := none } else none

/-- Concrete rules table fixture with no entries at all. -/
def noRulesFix : String → Option NpcRule := fun _ => none

/-- Game state fixture whose opinion of `trepov` is `v` and everything
else is at its initial value. -/
def gsWithOpinion (v : Int) : GameState :=
  { initializeGameState with npc_opinions := fun k => if k = "trepov" then v else 0 }

/-- Effect delta fixture carrying a single opinion change for `trepov`. -/
def deltaOpinion (v : Int) : EffectDelta :=
  { factions := [], player_traits := [], npc_opinions := [("trepov", v)], flags := [] }

/-- A JSON document as `JSON.parse` yields it.  Numbers are modelled as
integers (no floating-point structure is consumed by the parser under
verification); a JS `undefined` read is collapsed to `null`, which has
the same falsiness. -/
inductive Json where
  | null
  | bool (b : Bool)
  | num (n : Int)
  | str (s : String)
  | arr (elems : List Json)
  | obj (fields : List (String × Json))

/-- JS truthiness of a JSON value: `null`, `false`, `0` and the empty
string are falsy; objects and arrays (even empty) are truthy. -/
def jsTruthy : Json → Bool
  | Json.null => false
  | Json.bool b => b
  | Json.num n => n != 0
  | Json.str s => !s.isEmpty
  | Json.arr _ => true
  | Json.obj _ => true

/-- JS property read `v[k]`: the field of an object, `undefined`
(collapsed to `null`) otherwise. -/
def getField : Json → String → Json
  | Json.obj fields, k =>
    match List.lookup k fields with
    | some v => v
    | none => Json.null
  | _, _ => Json.null

/-- One global regex-replace pass: remove every occurrence of `marker`
together with the whitespace run following it (the trailing whitespace
wildcard in the source pattern), scanning left to right over the
original text as a global regex replace does. -/
def stripMarkerAll (marker : List Char) (l : List Char) : List Char :=
  match l with
  | [] => []
  | c :: cs =>
    if h : marker ≠ [] ∧ marker.isPrefixOf (c :: cs) then
      stripMarkerAll marker (((c :: cs).drop marker.length).dropWhile Char.isWhitespace)
    else
      c :: stripMarkerAll marker cs
termination_by l.length
decreasing_by
  · have h1 : ∀ m : List Char, (m.dropWhile Char.isWhitespace).length ≤ m.length := by
      intro m
      induction m with
      | nil => simp [List.dropWhile]
      | cons a as ih =>
        cases hpa : Char.isWhitespace a <;> simp [List.dropWhile, hpa] <;> omega
    have h2 : (((c :: cs).drop marker.length).dropWhile Char.isWhitespace).length
        ≤ ((c :: cs).drop marker.length).length := h1 _
    have h3 : ((c :: cs).drop marker.length).length = (c :: cs).length - marker.length :=
      List.length_drop _ _
    have h4 : 0 < marker.length := List.length_pos.mpr h.1
    have h5 : (c :: cs).length = cs.length + 1 := List.length_cons _ _
    omega
  · simp [List.length_cons]

/-- The fence stripping of `AIClient.parseResponse`: trim, then globally
remove the fenced-json opener (three backticks and `json`, plus trailing
whitespace), then remove remaining three-backtick fences (plus trailing
whitespace), then trim again. -/
def cleanResponseText (responseText : String) : String :=
  (String.mk (stripMarkerAll "```".toList
    (stripMarkerAll "```json".toList responseText.trim.toList))).trim

/-- The fixed neutral fallback returned by `parseResponse` on any parse
or validation failure. -/
def fallbackResponse : Json :=
  Json.obj
    [("response", Json.str "Anteeksi, en voi nyt keskustella. Jatketaan myöhemmin."),
     ("analysis", Json.obj
       [("overall_tone", Json.arr [Json.str "neutral"]),
        ("detected_stance_towards_russia", Json.str "neutral"),
        ("cooperativeness", Json.str "medium")])]

/-- `AIClient.parseResponse`: strip fences, parse JSON, validate that
`response` and `analysis` are present (truthy) and that `analysis` holds
`overall_tone` and `detected_stance_towards_russia`; any parse failure or
failed validation yields the fixed neutral fallback (the JS `try/catch`
catches both the parser's exception and the two validation throws).
`JSON.parse` is a JS platform primitive, not repository code, so it is
taken as a parameter: an arbitrary parser returning `none` exactly when
the JS parser would throw. -/
def parseResponse (jsonParse : String → Option Json) (responseText : String) : Json :=
  match jsonParse (cleanResponseText responseText) with
  | none => fallbackResponse
  | some parsed =>
    if !(jsTruthy (getField parsed "response")) || !(jsTruthy (getField parsed "analysis"))
    then fallbackResponse
    else if !(jsTruthy (getField (getField parsed "analysis") "overall_tone"))
        || !(jsTruthy (getField (getField parsed "analysis") "detected_stance_towards_russia"))
    then fallbackResponse
    else parsed

/-- Substring containment over character lists, the effect of matching a
single literal alternative of the source's regular expression. -/
def containsSub (needle : List Char) : List Char → Bool
  | [] => needle.isEmpty
  | c :: rest => needle.isPrefixOf (c :: rest) || containsSub needle rest

/-- One keyword family of the heuristic analyzer: does the lowercased
text contain any alternative of the family's regular expression. -/
def matchesAnyKeyword (lowerText : String) (keywords : List String) : Bool :=
  keywords.any (fun k => containsSub k.toList lowerText.toList)

/-- Duty/obedience keyword family of `analyzePlayerResponse`. -/
def dutyKeywords : List String := ["velvollisuus", "käsky", "palvelen", "totelen"]

/-- Caution/risk keyword family of `analyzePlayerResponse`. -/
def cautionKeywords : List String := ["epäilen", "huolestun", "riski", "vaara"]

/-- Refusal/resistance keyword family of `analyzePlayerResponse`. -/
def refusalKeywords : List String := ["kieltäy", "en voi", "vastustan"]

/-- Agreement/understanding keyword family of `analyzePlayerResponse`. -/
def agreementKeywords : List String := ["ymmärrän", "selvä", "hyvä"]

/-- Parser fixture: a parser that rejects every input, as `JSON.parse`
does on text that is not JSON. -/
def parseNoneFix : String → Option Json := fun _ => none

/-- Parser fixture: a parser producing an object with a `response` but
no `analysis` field. -/
def parseMissingAnalysisFix : String → Option Json :=
  fun _ => some (Json.obj [("response", Json.str "Ymmärrän.")])

/-- The JS `playerText.toLowerCase()` call.  (JS lowercases the full
Unicode range; `Char.toLower` lowers the ASCII range, which covers every
case distinction the keyword families can react to.) -/
def jsToLower (s : String) : String := String.mk (s.toList.map Char.toLower)

/-- The structured analysis produced by the heuristic analyzer. -/
structure DialogueAnalysis where
  tone : String
  themes : List String
  sentiment : String
deriving DecidableEq, Repr

/-- `AIWorker.analyzePlayerResponse` (simplified worker): lowercase the
utterance, then test the four keyword families in fixed priority order —
duty, caution, refusal, agreement — and produce the first matching
family's tone/theme/sentiment triple, or the neutral analysis when no
family matches. -/
def analyzePlayerResponse (playerText : String) : DialogueAnalysis :=
  if matchesAnyKeyword (jsToLower playerText) dutyKeywords then
    { tone := "loyal", themes := ["duty"], sentiment := "positive" }
  else if matchesAnyKeyword (jsToLower playerText) cautionKeywords then
    { tone := "concerned", themes := ["caution"], sentiment := "neutral" }
  else if matchesAnyKeyword (jsToLower playerText) refusalKeywords then
    { tone := "defiant", themes := ["resistance"], sentiment := "negative" }
  else if matchesAnyKeyword (jsToLower playerText) agreementKeywords then
    { tone := "cooperative", themes := ["agreement"], sentiment := "positive" }
  else
    { tone := "neutral", themes := [], sentiment := "neutral" }

lemma clamp100_bounds (x : Int) : -100 ≤ clamp100 x ∧ clamp100 x ≤ 100 := by
  constructor
  · exact le_max_left _ _
  · exact max_le (by norm_num) (min_le_left _ _)

lemma applyEntriesClamped_bounds (entries : List (String × Int)) :
    ∀ f : String → Int, (∀ k, -100 ≤ f k ∧ f k ≤ 100) →
      ∀ k, -100 ≤ applyEntriesClamped f entries k ∧ applyEntriesClamped f entries k ≤ 100 := by
  induction entries with
  | nil => intro f hf k; simpa [applyEntriesClamped] using hf k
  | cons kv rest ih =>
    intro f hf k
    have hstep : ∀ x, -100 ≤ (fun x => if x = kv.1 then clamp100 (f kv.1 + kv.2) else f x) x ∧
        (fun x => if x = kv.1 then clamp100 (f kv.1 + kv.2) else f x) x ≤ 100 := by
      intro x
      by_cases hx : x = kv.1
      · simpa [hx] using clamp100_bounds (f kv.1 + kv.2)
      · simpa [hx] using hf x
    simpa [applyEntriesClamped, List.foldl_cons] using
      ih (fun x => if x = kv.1 then clamp100 (f kv.1 + kv.2) else f x) hstep k

lemma applyEntries_eq_add (entries : List (String × Int)) :
    ∀ (f : String → Int) (k : String),
      applyEntries f entries k = f k + entriesSum entries k := by
  induction entries with
  | nil => intro f k; simp [applyEntries, entriesSum]
  | cons kv rest ih =>
    intro f k
    have h := ih (fun x => if x = kv.1 then f kv.1 + kv.2 else f x) k
    by_cases hx : k = kv.1
    · subst hx
      simp only [applyEntries, List.foldl_cons] at h ⊢
      rw [h]
      simp [entriesSum]
      ring
    · simp only [applyEntries, List.foldl_cons] at h ⊢
      rw [h]
      simp [entriesSum, hx]

lemma assignFlags_eq_overwrite (entries : List (String × FlagV)) :
    ∀ (f : String → Option FlagV) (k : String),
      assignFlags f entries k = overwriteSpec (lastLookup entries k) (f k) := by
  induction entries with
  | nil => intro f k; simp [assignFlags, lastLookup, overwriteSpec]
  | cons kv rest ih =>
    intro f k
    have h := ih (fun x => if x = kv.1 then some kv.2 else f x) k
    simp only [assignFlags, List.foldl_cons] at h ⊢
    rw [h]
    by_cases hx : k = kv.1
    · rw [hx]
      cases hlast : lastLookup rest kv.1 <;>
        simp [lastLookup, overwriteSpec, hlast]
    · cases hlast : lastLookup rest k <;>
        simp [lastLookup, overwriteSpec, hlast, hx]

lemma applyEffects_bounds (s : GameState)
    (hf : ∀ k, -100 ≤ s.factions k ∧ s.factions k ≤ 100)
    (hn : ∀ k, -100 ≤ s.npc_opinions k ∧ s.npc_opinions k ≤ 100)
    (d : EffectDelta) :
    (∀ k, -100 ≤ (applyEffects s d).factions k ∧ (applyEffects s d).factions k ≤ 100) ∧
    (∀ k, -100 ≤ (applyEffects s d).npc_opinions k ∧ (applyEffects s d).npc_opinions k ≤ 100) := by
  constructor
  · exact applyEntriesClamped_bounds d.factions s.factions hf
  · exact applyEntriesClamped_bounds d.npc_opinions s.npc_opinions hn

lemma applyEffectsSeq_bounds (ds : List EffectDelta) :
    (∀ k, -100 ≤ (applyEffectsSeq ds).factions k ∧ (applyEffectsSeq ds).factions k ≤ 100) ∧
    (∀ k, -100 ≤ (applyEffectsSeq ds).npc_opinions k ∧
      (applyEffectsSeq ds).npc_opinions k ≤ 100) := by
  have main : ∀ (l : List EffectDelta) (s : GameState),
      (∀ k, -100 ≤ s.factions k ∧ s.factions k ≤ 100) →
      (∀ k, -100 ≤ s.npc_opinions k ∧ s.npc_opinions k ≤ 100) →
      (∀ k, -100 ≤ (l.foldl applyEffects s).factions k ∧
        (l.foldl applyEffects s).factions k ≤ 100) ∧
      (∀ k, -100 ≤ (l.foldl applyEffects s).npc_opinions k ∧
        (l.foldl applyEffects s).npc_opinions k ≤ 100) := by
    intro l
    induction l with
    | nil => intro s hf hn; exact ⟨hf, hn⟩
    | cons d rest ih =>
      intro s hf hn
      have hb := applyEffects_bounds s hf hn d
      simpa [List.foldl_cons] using ih (applyEffects s d) hb.1 hb.2
  exact main ds initializeGameState (by intro k; simp [initializeGameState])
    (by intro k; simp [initializeGameState])

/-- Claim C1: for every sequence of `applyEffects` calls starting from
the initialized game state, every faction value and every NPC opinion
value lies within `[-100, 100]` after each call, while player trait
values are exact unclamped sums and flags are plain overwrites (never
clamped). -/
theorem applyEffects_clamping_invariant :
    ∀ ds : List EffectDelta,
      (∀ k, -100 ≤ (applyEffectsSeq ds).factions k ∧ (applyEffectsSeq ds).factions k ≤ 100) ∧
      (∀ k, -100 ≤ (applyEffectsSeq ds).npc_opinions k ∧
        (applyEffectsSeq ds).npc_opinions k ≤ 100) ∧
      (∀ (s : GameState) (d : EffectDelta) (k : String),
        (applyEffects s d).player_traits k = s.player_traits k + entriesSum d.player_traits k) ∧
      (∀ (s : GameState) (d : EffectDelta) (k : String),
        (applyEffects s d).flags k = overwriteSpec (lastLookup d.flags k) (s.flags k)) := by
  intro ds
  refine ⟨(applyEffectsSeq_bounds ds).1, (applyEffectsSeq_bounds ds).2, ?_, ?_⟩
  · intro s d k
    exact applyEntries_eq_add d.player_traits s.player_traits k
  · intro s d k
    exact assignFlags_eq_overwrite d.flags s.flags k

lemma lookup_setEntry_self (k : String) (v : Int) :
    ∀ l : List (String × Int), List.lookup k (setEntry l k v) = some v := by
  intro l
  induction l with
  | nil => simp [setEntry]
  | cons kv rest ih =>
    obtain ⟨k1, v1⟩ := kv
    by_cases h : k1 = k
    · simp [setEntry, h]
    · have hb : (k1 == k) = false := beq_eq_false_iff_ne.mpr h
      have hb2 : (k == k1) = false := beq_eq_false_iff_ne.mpr (Ne.symm h)
      simp [setEntry, hb, List.lookup_cons, hb2, ih]

lemma lookup_setEntry_other (k k' : String) (v : Int) (hne : k' ≠ k) :
    ∀ l : List (String × Int), List.lookup k' (setEntry l k v) = List.lookup k' l := by
  intro l
  induction l with
  | nil =>
    have hb : (k' == k) = false := beq_eq_false_iff_ne.mpr hne
    simp [setEntry, List.lookup_cons, hb]
  | cons kv rest ih =>
    obtain ⟨k1, v1⟩ := kv
    by_cases h : k1 = k
    · subst h
      have hb : (k' == k1) = false := beq_eq_false_iff_ne.mpr hne
      simp [setEntry, List.lookup_cons, hb]
    · have hb : (k1 == k) = false := beq_eq_false_iff_ne.mpr h
      simp [setEntry, hb, List.lookup_cons, ih]

lemma lookupD_setEntry_self (l : List (String × Int)) (k : String) (v : Int) :
    lookupD (setEntry l k v) k 0 = v := by
  simp [lookupD, lookup_setEntry_self]

lemma fallbackProtections_component_soft
    (npc_rules : String → Option NpcRule) (npcId : String)
    (effects : EffectDelta) (gameState : GameState) (r : NpcRule)
    (hrule : npc_rules npcId = some r)
    (hneg : lookupD effects.npc_opinions npcId 0 < 0)
    (hsoft : gameState.npc_opinions npcId + lookupD effects.npc_opinions npcId 0 < -40)
    (hnothard :
      ¬ (gameState.npc_opinions npcId + lookupD effects.npc_opinions npcId 0 < -80)) :
    lookupD (applyFallbackProtections npc_rules npcId effects gameState).npc_opinions npcId 0
      = max (lookupD effects.npc_opinions npcId 0) (-3) := by
  unfold applyFallbackProtections
  rw [hrule]
  simp only [hardLockStep, softLockStep, if_pos hsoft, if_pos hneg, if_neg hnothard,
    lookupD_setEntry_self]

lemma fallbackProtections_component_hard
    (npc_rules : String → Option NpcRule) (npcId : String)
    (effects : EffectDelta) (gameState : GameState) (r : NpcRule)
    (hrule : npc_rules npcId = some r)
    (hneg : lookupD effects.npc_opinions npcId 0 < 0)
    (hhard : gameState.npc_opinions npcId + lookupD effects.npc_opinions npcId 0 < -80) :
    lookupD (applyFallbackProtections npc_rules npcId effects gameState).npc_opinions npcId 0
      = 0 := by
  have hsoft :
      gameState.npc_opinions npcId + lookupD effects.npc_opinions npcId 0 < -40 := by
    omega
  have hsoftened : max (lookupD effects.npc_opinions npcId 0) (-3) < 0 :=
    max_lt hneg (by norm_num)
  unfold applyFallbackProtections
  rw [hrule]
  simp only [hardLockStep, softLockStep, if_pos hsoft, if_pos hneg, if_pos hhard,
    lookupD_setEntry_self, if_pos hsoftened]

/-- Claim C3: with an `npc_rules` entry present, a negative opinion delta
whose predicted opinion falls below the soft-lock threshold `-40` ends up
no worse than `-3`; when the prediction is not also below the hard-lock
threshold `-80`, the component is exactly `max(component, -3)`. -/
theorem applyFallbackProtections_soft_lock
    (npc_rules : String → Option NpcRule) (npcId : String)
    (effects : EffectDelta) (gameState : GameState) (r : NpcRule)
    (hrule : npc_rules npcId = some r)
    (hneg : lookupD effects.npc_opinions npcId 0 < 0)
    (hsoft : gameState.npc_opinions npcId + lookupD effects.npc_opinions npcId 0 < -40) :
    -3 ≤ lookupD
        (applyFallbackProtections npc_rules npcId effects gameState).npc_opinions npcId 0 ∧
    (-80 ≤ gameState.npc_opinions npcId + lookupD effects.npc_opinions npcId 0 →
      lookupD
          (applyFallbackProtections npc_rules npcId effects gameState).npc_opinions npcId 0
        = max (lookupD effects.npc_opinions npcId 0) (-3)) := by
  by_cases hhard :
      gameState.npc_opinions npcId + lookupD effects.npc_opinions npcId 0 < -80
  · have h0 := fallbackProtections_component_hard npc_rules npcId effects gameState r
      hrule hneg hhard
    constructor
    · rw [h0]
      norm_num
    · intro hge
      omega
  · have hm := fallbackProtections_component_soft npc_rules npcId effects gameState r
      hrule hneg hsoft hhard
    constructor
    · rw [hm]
      exact le_max_right _ _
    · intro _
      exact hm

/-- Claim C4: with an `npc_rules` entry present, a negative opinion delta
whose predicted opinion falls below the hard-lock threshold `-80` is
neutralized to `0` (the softened component `max(component, -3)` is still
negative, so the hard-lock branch fires). -/
theorem applyFallbackProtections_hard_lock
    (npc_rules : String → Option NpcRule) (npcId : String)
    (effects : EffectDelta) (gameState : GameState) (r : NpcRule)
    (hrule : npc_rules npcId = some r)
    (hneg : lookupD effects.npc_opinions npcId 0 < 0)
    (hhard : gameState.npc_opinions npcId + lookupD effects.npc_opinions npcId 0 < -80) :
    lookupD (applyFallbackProtections npc_rules npcId effects gameState).npc_opinions npcId 0
      = 0 :=
  fallbackProtections_component_hard npc_rules npcId effects gameState r hrule hneg hhard

/-- Claim C5: `applyFallbackProtections` never touches the factions,
player-trait or flag sub-maps of the delta, never touches other
characters' opinion entries, only ever makes the dialogue character's
opinion component less negative, leaves a non-negative component (and the
whole delta) unchanged, and is the identity when the predicted opinion is
at or above the soft-lock threshold. -/
theorem applyFallbackProtections_frame
    (npc_rules : String → Option NpcRule) (npcId : String)
    (effects : EffectDelta) (gameState : GameState) :
    (applyFallbackProtections npc_rules npcId effects gameState).factions = effects.factions ∧
    (applyFallbackProtections npc_rules npcId effects gameState).player_traits
      = effects.player_traits ∧
    (applyFallbackProtections npc_rules npcId effects gameState).flags = effects.flags ∧
    lookupD effects.npc_opinions npcId 0
      ≤ lookupD (applyFallbackProtections npc_rules npcId effects gameState).npc_opinions
          npcId 0 ∧
    (∀ k, k ≠ npcId →
      List.lookup k (applyFallbackProtections npc_rules npcId effects gameState).npc_opinions
        = List.lookup k effects.npc_opinions) ∧
    (0 ≤ lookupD effects.npc_opinions npcId 0 →
      applyFallbackProtections npc_rules npcId effects gameState = effects) ∧
    (-40 ≤ gameState.npc_opinions npcId + lookupD effects.npc_opinions npcId 0 →
      applyFallbackProtections npc_rules npcId effects gameState = effects) := by
  cases hnr : npc_rules npcId with
  | none =>
    unfold applyFallbackProtections
    rw [hnr]
    exact ⟨rfl, rfl, rfl, le_refl _, fun k _ => rfl, fun _ => rfl, fun _ => rfl⟩
  | some r =>
    unfold applyFallbackProtections
    rw [hnr]
    by_cases hsoft :
        gameState.npc_opinions npcId + lookupD effects.npc_opinions npcId 0 < -40
    · by_cases hneg : lookupD effects.npc_opinions npcId 0 < 0
      · by_cases hhard :
            gameState.npc_opinions npcId + lookupD effects.npc_opinions npcId 0 < -80
        · have hsoftened : max (lookupD effects.npc_opinions npcId 0) (-3) < 0 :=
            max_lt hneg (by norm_num)
          simp only [hardLockStep, softLockStep, if_pos hsoft, if_pos hneg, if_pos hhard,
            lookupD_setEntry_self, if_pos hsoftened]
          refine ⟨trivial, trivial, trivial, ?_, ?_, ?_, ?_⟩
          · omega
          · intro k hk
            rw [lookup_setEntry_other _ _ _ hk, lookup_setEntry_other _ _ _ hk]
          · intro h0; omega
          · intro h40; omega
        · simp only [hardLockStep, softLockStep, if_pos hsoft, if_pos hneg, if_neg hhard,
            lookupD_setEntry_self]
          refine ⟨trivial, trivial, trivial, le_max_left _ _, ?_, ?_, ?_⟩
          · intro k hk
            exact lookup_setEntry_other _ _ _ hk _
          · intro h0; omega
          · intro h40; omega
      · by_cases hhard :
            gameState.npc_opinions npcId + lookupD effects.npc_opinions npcId 0 < -80
        · simp [hardLockStep, softLockStep, if_pos hsoft, if_neg hneg, if_pos hhard]
        · simp [hardLockStep, softLockStep, if_pos hsoft, if_neg hneg, if_neg hhard]
    · have hnothard :
          ¬ (gameState.npc_opinions npcId + lookupD effects.npc_opinions npcId 0 < -80) := by
        omega
      simp [hardLockStep, softLockStep, if_neg hsoft, if_neg hnothard]

/-- Claim C10: a character id with no entry in the `npc_rules` table
makes `applyFallbackProtections` return immediately, leaving the delta
entirely unchanged even when the predicted opinion is below both lock
thresholds. -/
theorem applyFallbackProtections_no_rules_entry
    (npc_rules : String → Option NpcRule) (npcId : String)
    (effects : EffectDelta) (gameState : GameState)
    (hrule : npc_rules npcId = none) :
    applyFallbackProtections npc_rules npcId effects gameState = effects := by
  unfold applyFallbackProtections
  rw [hrule]

/-- Witness for the soft-lock theorem at the spec's concrete input:
current opinion `-38`, delta `-10`, predicted `-48`; the resulting delta
component is `-3` and the final opinion after application is `-41`. -/
theorem applyFallbackProtections_soft_lock_witness :
    npcRulesFix "trepov" = some { fallback_rule := none } ∧
    lookupD (deltaOpinion (-10)).npc_opinions "trepov" 0 < 0 ∧
    (gsWithOpinion (-38)).npc_opinions "trepov"
      + lookupD (deltaOpinion (-10)).npc_opinions "trepov" 0 < -40 ∧
    -80 ≤ (gsWithOpinion (-38)).npc_opinions "trepov"
      + lookupD (deltaOpinion (-10)).npc_opinions "trepov" 0 ∧
    lookupD (applyFallbackProtections npcRulesFix "trepov" (deltaOpinion (-10))
      (gsWithOpinion (-38))).npc_opinions "trepov" 0 = -3 ∧
    (applyEffects (gsWithOpinion (-38))
      (applyFallbackProtections npcRulesFix "trepov" (deltaOpinion (-10))
        (gsWithOpinion (-38)))).npc_opinions "trepov" = -41 := by
  refine ⟨rfl, by decide, by decide, by decide, ?_, by decide⟩
  have h := applyFallbackProtections_soft_lock npcRulesFix "trepov" (deltaOpinion (-10))
    (gsWithOpinion (-38)) { fallback_rule := none } rfl (by decide) (by decide)
  rw [h.2 (by decide)]
  decide

/-- Witness for the hard-lock theorem at the spec's concrete input:
current opinion `-75`, delta `-10`, predicted `-85`; the resulting delta
component is `0` and the final opinion stays `-75`. -/
theorem applyFallbackProtections_hard_lock_witness :
    npcRulesFix "trepov" = some { fallback_rule := none } ∧
    lookupD (deltaOpinion (-10)).npc_opinions "trepov" 0 < 0 ∧
    (gsWithOpinion (-75)).npc_opinions "trepov"
      + lookupD (deltaOpinion (-10)).npc_opinions "trepov" 0 < -80 ∧
    lookupD (applyFallbackProtections npcRulesFix "trepov" (deltaOpinion (-10))
      (gsWithOpinion (-75))).npc_opinions "trepov" 0 = 0 ∧
    (applyEffects (gsWithOpinion (-75))
      (applyFallbackProtections npcRulesFix "trepov" (deltaOpinion (-10))
        (gsWithOpinion (-75)))).npc_opinions "trepov" = -75 := by
  refine ⟨rfl, by decide, by decide, ?_, by decide⟩
  exact applyFallbackProtections_hard_lock npcRulesFix "trepov" (deltaOpinion (-10))
    (gsWithOpinion (-75)) { fallback_rule := none } rfl (by decide) (by decide)

/-- Witness for the frame theorem at the spec's concrete input: current
opinion `10`, delta `-5`, predicted `5` (above both thresholds), so the
delta passes through completely unmodified. -/
theorem applyFallbackProtections_frame_witness :
    -40 ≤ (gsWithOpinion 10).npc_opinions "trepov"
      + lookupD (deltaOpinion (-5)).npc_opinions "trepov" 0 ∧
    applyFallbackProtections npcRulesFix "trepov" (deltaOpinion (-5)) (gsWithOpinion 10)
      = deltaOpinion (-5) := by
  refine ⟨by decide, ?_⟩
  exact (applyFallbackProtections_frame npcRulesFix "trepov" (deltaOpinion (-5))
    (gsWithOpinion 10)).2.2.2.2.2.2 (by decide)

/-- Witness for the missing-rules theorem: with an empty rules table and
a predicted opinion of `-100` (far below both thresholds), the delta is
returned entirely unchanged. -/
theorem applyFallbackProtections_no_rules_entry_witness :
    noRulesFix "trepov" = none ∧
    (gsWithOpinion (-90)).npc_opinions "trepov"
      + lookupD (deltaOpinion (-10)).npc_opinions "trepov" 0 < -80 ∧
    applyFallbackProtections noRulesFix "trepov" (deltaOpinion (-10)) (gsWithOpinion (-90))
      = deltaOpinion (-10) := by
  refine ⟨rfl, by decide, ?_⟩
  exact applyFallbackProtections_no_rules_entry noRulesFix "trepov" (deltaOpinion (-10))
    (gsWithOpinion (-90)) rfl

lemma matchesCondition_eq_amended (condition analysis : List (String × JVal)) :
    matchesCondition condition analysis = amendedCondMatches condition analysis := by
  unfold matchesCondition amendedCondMatches
  congr 1

lemma find?_matchesCondition_eq_firstMatching (analysis : List (String × JVal)) :
    ∀ mappings : List EffectsMapping,
      (match mappings.find? (fun m => matchesCondition m.condition analysis) with
        | some mapping => rawToDelta mapping.effects
        | none => getDefaultEffects) = firstMatchingEffects mappings analysis := by
  intro mappings
  induction mappings with
  | nil => simp [firstMatchingEffects]
  | cons m rest ih =>
    cases hm : amendedCondMatches m.condition analysis with
    | true =>
      have hp : matchesCondition m.condition analysis = true := by
        rw [matchesCondition_eq_amended]; exact hm
      rw [List.find?_cons]
      rw [hp]
      simp [firstMatchingEffects, hm]
    | false =>
      have hp : matchesCondition m.condition analysis = false := by
        rw [matchesCondition_eq_amended]; exact hm
      rw [List.find?_cons]
      rw [hp]
      rw [ih]
      simp [firstMatchingEffects, hm]

/-- Claim C2 (amended): for a scene present in the module's acts list
with an `ai_dialogue` descriptor, `calculateDiplomacyEffects` returns
exactly the effects of the first mapping in document order whose
condition fully matches the analysis — AND across condition keys, OR
within an expected-value set, list-any matching when the expected value
is a set and the analysis value a list, a scalar expected value matching
only an equal scalar — and the neutral default (all four sub-maps
empty) when no mapping matches. -/
theorem calculateDiplomacyEffects_first_match
    (acts : List Act) (sceneId : String) (analysis : List (String × JVal))
    (act : Act) (ai : AiDialogue)
    (hfind : acts.find? (fun a => a.scene == sceneId) = some act)
    (hai : act.ai_dialogue = some ai) :
    calculateDiplomacyEffects acts sceneId analysis
      = firstMatchingEffects ai.effects_mapping analysis := by
  unfold calculateDiplomacyEffects
  rw [hfind]
  dsimp only
  rw [hai]
  exact find?_matchesCondition_eq_firstMatching analysis ai.effects_mapping

/-- Claim C2 counterexample: under the claim's own matching rule the
scalar condition `overall_tone: "loyal"` matches the list-valued
analysis `overall_tone: ["loyal"]` (list-any over the singleton
expected set), so the claim demands the first mapping's non-neutral
effects; the source's `matchesCondition` rejects the pair (JS strict
equality of a list against a scalar), and `calculateDiplomacyEffects`
returns the neutral default instead. -/
theorem calculateDiplomacyEffects_claim_counterexample :
    claimCondMatches condScalarLoyal analysisListLoyal = true ∧
    claimFirstMatchingEffects [mappingScalarLoyal] analysisListLoyal
      = rawToDelta mappingScalarLoyal.effects ∧
    rawToDelta mappingScalarLoyal.effects ≠ getDefaultEffects ∧
    matchesCondition condScalarLoyal analysisListLoyal = false ∧
    calculateDiplomacyEffects actsScalarLoyal "2_trepov_meeting" analysisListLoyal
      = getDefaultEffects := by
  refine ⟨by decide, by decide, by decide, by decide, by decide⟩

/-- Witness for the amended claim C2 theorem: an analysis satisfying
both mappings' conditions yields exactly the first mapping's effects
(first match wins, list-any matching); an analysis satisfying neither
(`overall_tone: ["critical"]`) yields the neutral default. -/
theorem calculateDiplomacyEffects_first_match_witness :
    actsTwoMappings.find? (fun a => a.scene == "2_trepov_meeting") = some actTwoMappings ∧
    actTwoMappings.ai_dialogue = some aiTwoMappings ∧
    amendedCondMatches mappingLoyalFirst.condition analysisLoyal = true ∧
    amendedCondMatches mappingLoyalSecond.condition analysisLoyal = true ∧
    calculateDiplomacyEffects actsTwoMappings "2_trepov_meeting" analysisLoyal
      = rawToDelta mappingLoyalFirst.effects ∧
    calculateDiplomacyEffects actsTwoMappings "2_trepov_meeting" analysisCritical
      = getDefaultEffects := by
  refine ⟨rfl, rfl, by decide, by decide, ?_, ?_⟩
  · rw [calculateDiplomacyEffects_first_match actsTwoMappings "2_trepov_meeting"
      analysisLoyal actTwoMappings aiTwoMappings rfl rfl]
    decide
  · rw [calculateDiplomacyEffects_first_match actsTwoMappings "2_trepov_meeting"
      analysisCritical actTwoMappings aiTwoMappings rfl rfl]
    decide

lemma selectNext_scene_choice (state : NodeData) (cs : List Choice) (cid : String)
    (c : Choice) (htype : state.type = "scene") (hch : state.choices = some cs)
    (hfind : cs.find? (fun ch => (some cid : Option String) == some ch.id) = some c) :
    selectNext state (some cid) = Except.ok (some c.next) := by
  unfold selectNext
  rw [htype, hch]
  simp only [Option.getD_some, hfind]
  rfl

lemma selectNext_scene_nochoice (state : NodeData) (cs : List Choice) (cid : String)
    (htype : state.type = "scene") (hch : state.choices = some cs)
    (hfind : cs.find? (fun ch => (some cid : Option String) == some ch.id) = none)
    (htr : state.transitions = none) :
    selectNext state (some cid) = Except.ok none := by
  unfold selectNext
  rw [htype, hch, htr]
  simp only [Option.getD_some, hfind, Option.isSome_none, Bool.and_false, if_false]
  rfl

/-- Claim C6: on a `scene` node with a declared choices list, a
transition with a matching choice id moves the cursor to that choice's
target and appends exactly one history record whose `from` is the
pre-transition node, whose `to` is the new node and whose `choice` is the
supplied id; a transition with an unknown choice id on a node without a
transitions fallback fails with `NoValidTransition` (the pure embedding
returns an error, so cursor and history are untouched). -/
theorem transition_scene_spec :
    (∀ (sm : StateMachine) (state : NodeData) (cs : List Choice) (cid : String) (c : Choice),
      List.lookup sm.currentState sm.states = some state →
      state.type = "scene" →
      state.choices = some cs →
      cs.find? (fun ch => (some cid : Option String) == some ch.id) = some c →
      c.next ≠ "" →
      transition sm (some cid) = Except.ok
        { sm with
            history := sm.history ++
              [{ fromState := sm.currentState, toState := c.next, choice := some cid }]
            currentState := c.next }) ∧
    (∀ (sm : StateMachine) (state : NodeData) (cs : List Choice) (cid : String),
      List.lookup sm.currentState sm.states = some state →
      state.type = "scene" →
      state.choices = some cs →
      cs.find? (fun ch => (some cid : Option String) == some ch.id) = none →
      state.transitions = none →
      transition sm (some cid) = Except.error
        (SMError.noValidTransition sm.currentState (some cid))) := by
  constructor
  · intro sm state cs cid c hlook htype hch hfind hne
    have hsel := selectNext_scene_choice state cs cid c htype hch hfind
    have hemp : c.next.isEmpty = false := by
      cases he : c.next.isEmpty
      · rfl
      · exact absurd ((String.isEmpty_iff c.next).mp he) hne
    unfold transition
    simp only [hlook, hsel, hemp, Bool.false_eq_true, if_false]
  · intro sm state cs cid hlook htype hch hfind htr
    have hsel := selectNext_scene_nochoice state cs cid htype hch hfind htr
    unfold transition
    simp only [hlook, hsel]

/-- Witness for claim C6 at the spec's concrete example: from the scene
node with choices `a → X`, `b → Y`, `transition "b"` moves to `Y` with
exactly the one history record `{from: S, to: Y, choice: b}`, and
`transition "z"` fails with `NoValidTransition`. -/
theorem transition_scene_spec_witness :
    List.lookup smSceneAB.currentState smSceneAB.states = some nodeSceneAB ∧
    nodeSceneAB.type = "scene" ∧
    transition smSceneAB (some "b") = Except.ok smAfterB ∧
    transition smSceneAB (some "z") = Except.error
      (SMError.noValidTransition "S" (some "z")) := by
  refine ⟨rfl, rfl, ?_, ?_⟩
  · have h := transition_scene_spec.1 smSceneAB nodeSceneAB
      [{ id := "a", next := "X" }, { id := "b", next := "Y" }] "b"
      { id := "b", next := "Y" } rfl rfl rfl (by decide) (by decide)
    rw [h]
    rfl
  · exact transition_scene_spec.2 smSceneAB nodeSceneAB
      [{ id := "a", next := "X" }, { id := "b", next := "Y" }] "z"
      rfl rfl rfl (by decide) rfl

lemma transition_ok_shape (sm : StateMachine) (choiceId : Option String)
    (sm' : StateMachine) (h : transition sm choiceId = Except.ok sm') :
    ∃ nextState, sm' =
      { sm with
          history := sm.history ++
            [{ fromState := sm.currentState, toState := nextState, choice := choiceId }]
          currentState := nextState } := by
  unfold transition at h
  split at h
  · exact absurd h (by simp)
  · split at h
    · exact absurd h (by simp)
    · exact absurd h (by simp)
    · rename_i nextState hsel
      split at h
      · exact absurd h (by simp)
      · exact ⟨nextState, (Except.ok.inj h).symm⟩

/-- Claim C7 counterexample: `goBack` does not fail on an empty history.
The source's `navigateBack` has no failure path: the empty-history case
logs a warning and returns without change, as it does on this concrete
empty-history machine. -/
theorem navigateBack_empty_history_counterexample :
    smSceneAB.history = [] ∧ navigateBack smSceneAB = smSceneAB := ⟨rfl, rfl⟩

/-- Claim C7 (amended): `goBack` removes the most recent history record
and restores the cursor to that record's `from` without logging a new
record, so after any successful forward transition it restores the exact
pre-transition cursor and history (empty when the history was empty);
on an empty history it is a silent no-op rather than a failure. -/
theorem navigateBack_spec :
    (∀ sm : StateMachine, sm.history = [] → navigateBack sm = sm) ∧
    (∀ (sm : StateMachine) (rest : List HistoryEntry) (entry : HistoryEntry),
      sm.history = rest ++ [entry] →
      navigateBack sm = { sm with history := rest, currentState := entry.fromState }) ∧
    (∀ (sm : StateMachine) (choiceId : Option String) (sm' : StateMachine),
      transition sm choiceId = Except.ok sm' →
      navigateBack sm' =
        { sm' with history := sm.history, currentState := sm.currentState }) := by
  refine ⟨?_, ?_, ?_⟩
  · intro sm h
    simp [navigateBack, h]
  · intro sm rest entry h
    simp [navigateBack, h, List.getLast?_concat, List.dropLast_concat]
  · intro sm choiceId sm' h
    obtain ⟨nextState, hshape⟩ := transition_ok_shape sm choiceId sm' h
    subst hshape
    simp [navigateBack, List.getLast?_concat, List.dropLast_concat]

/-- Witness for the amended claim C7 theorem: after the single forward
transition `b` from the example machine, one `goBack` restores the exact
original machine, whose history is empty. -/
theorem navigateBack_spec_witness :
    transition smSceneAB (some "b") = Except.ok smAfterB ∧
    navigateBack smAfterB = smSceneAB ∧
    smSceneAB.history = [] := by
  refine ⟨by rfl, ?_, rfl⟩
  have h := navigateBack_spec.2.2 smSceneAB (some "b") smAfterB (by rfl)
  rw [h]
  rfl

/-- Claim C8: the response parser never propagates a parse or
validation failure: when the parser rejects the fence-stripped text, or
the parsed object lacks the `response` field, the `analysis` field,
`analysis.overall_tone` or `analysis.detected_stance_towards_russia`,
the result is exactly the fixed neutral fallback reply with the neutral
analysis; and on every input the result is either the parsed object or
that fallback (never an error). -/
theorem parseResponse_never_fails :
    ∀ (jsonParse : String → Option Json) (responseText : String),
      (jsonParse (cleanResponseText responseText) = none →
        parseResponse jsonParse responseText = fallbackResponse) ∧
      (∀ parsed, jsonParse (cleanResponseText responseText) = some parsed →
        (getField parsed "response" = Json.null ∨
         getField parsed "analysis" = Json.null ∨
         getField (getField parsed "analysis") "overall_tone" = Json.null ∨
         getField (getField parsed "analysis") "detected_stance_towards_russia"
           = Json.null) →
        parseResponse jsonParse responseText = fallbackResponse) ∧
      (∀ parsed, jsonParse (cleanResponseText responseText) = some parsed →
        parseResponse jsonParse responseText = fallbackResponse ∨
        parseResponse jsonParse responseText = parsed) := by
  intro jsonParse responseText
  refine ⟨?_, ?_, ?_⟩
  · intro h
    simp [parseResponse, h]
  · intro parsed hp hbad
    simp only [parseResponse, hp]
    rcases hbad with hb | hb | hb | hb
    · rw [hb]
      simp [jsTruthy]
    · rw [hb]
      simp [jsTruthy]
    · have hc2 : (!(jsTruthy (getField (getField parsed "analysis") "overall_tone"))
          || !(jsTruthy (getField (getField parsed "analysis")
            "detected_stance_towards_russia"))) = true := by
        rw [hb]
        simp [jsTruthy]
      cases hc1 : (!(jsTruthy (getField parsed "response"))
          || !(jsTruthy (getField parsed "analysis")))
      · simp [hc1, hc2]
      · simp [hc1]
    · have hc2 : (!(jsTruthy (getField (getField parsed "analysis") "overall_tone"))
          || !(jsTruthy (getField (getField parsed "analysis")
            "detected_stance_towards_russia"))) = true := by
        rw [hb]
        simp [jsTruthy]
      cases hc1 : (!(jsTruthy (getField parsed "response"))
          || !(jsTruthy (getField parsed "analysis")))
      · simp [hc1, hc2]
      · simp [hc1]
  · intro parsed hp
    simp only [parseResponse, hp]
    split_ifs with h1 h2
    · exact Or.inl rfl
    · exact Or.inl rfl
    · exact Or.inr rfl

/-- Witness for claim C8: a parser rejecting the non-JSON input yields
exactly the fallback, and a parsed object missing the `analysis` field
yields exactly the fallback. -/
theorem parseResponse_never_fails_witness :
    parseNoneFix (cleanResponseText "this is not json") = none ∧
    parseResponse parseNoneFix "this is not json" = fallbackResponse ∧
    getField (Json.obj [("response", Json.str "Ymmärrän.")]) "analysis" = Json.null ∧
    parseResponse parseMissingAnalysisFix "irrelevant" = fallbackResponse := by
  refine ⟨rfl, ?_, rfl, ?_⟩
  · exact (parseResponse_never_fails parseNoneFix "this is not json").1 rfl
  · exact (parseResponse_never_fails parseMissingAnalysisFix "irrelevant").2.1
      (Json.obj [("response", Json.str "Ymmärrän.")]) rfl (Or.inr (Or.inl rfl))

/-- Claim C9: the heuristic analyzer tests the four keyword families in
the fixed priority order duty, caution, refusal, agreement on the
lowercased utterance, and produces exactly the first matching family's
tone/theme/sentiment triple; when no family matches it produces the
neutral analysis with empty themes. -/
theorem analyzePlayerResponse_priority :
    ∀ playerText : String,
      (matchesAnyKeyword (jsToLower playerText) dutyKeywords = true →
        analyzePlayerResponse playerText
          = { tone := "loyal", themes := ["duty"], sentiment := "positive" }) ∧
      (matchesAnyKeyword (jsToLower playerText) dutyKeywords = false →
        matchesAnyKeyword (jsToLower playerText) cautionKeywords = true →
        analyzePlayerResponse playerText
          = { tone := "concerned", themes := ["caution"], sentiment := "neutral" }) ∧
      (matchesAnyKeyword (jsToLower playerText) dutyKeywords = false →
        matchesAnyKeyword (jsToLower playerText) cautionKeywords = false →
        matchesAnyKeyword (jsToLower playerText) refusalKeywords = true →
        analyzePlayerResponse playerText
          = { tone := "defiant", themes := ["resistance"], sentiment := "negative" }) ∧
      (matchesAnyKeyword (jsToLower playerText) dutyKeywords = false →
        matchesAnyKeyword (jsToLower playerText) cautionKeywords = false →
        matchesAnyKeyword (jsToLower playerText) refusalKeywords = false →
        matchesAnyKeyword (jsToLower playerText) agreementKeywords = true →
        analyzePlayerResponse playerText
          = { tone := "cooperative", themes := ["agreement"], sentiment := "positive" }) ∧
      (matchesAnyKeyword (jsToLower playerText) dutyKeywords = false →
        matchesAnyKeyword (jsToLower playerText) cautionKeywords = false →
        matchesAnyKeyword (jsToLower playerText) refusalKeywords = false →
        matchesAnyKeyword (jsToLower playerText) agreementKeywords = false →
        analyzePlayerResponse playerText
          = { tone := "neutral", themes := [], sentiment := "neutral" }) := by
  intro playerText
  refine ⟨?_, ?_, ?_, ?_, ?_⟩ <;> intros <;> simp [analyzePlayerResponse, *]

/-- Witness for claim C9: an utterance containing both a duty keyword
and a caution keyword yields only the duty-family result (priority
order respected, first match wins). -/
theorem analyzePlayerResponse_priority_witness :
    matchesAnyKeyword (jsToLower "velvollisuus ja vaara") dutyKeywords = true ∧
    matchesAnyKeyword (jsToLower "velvollisuus ja vaara") cautionKeywords = true ∧
    analyzePlayerResponse "velvollisuus ja vaara"
      = { tone := "loyal", themes := ["duty"], sentiment := "positive" } := by
  refine ⟨by decide, by decide, ?_⟩
  exact (analyzePlayerResponse_priority "velvollisuus ja vaara").1 (by decide)

end Asia
